import Mathlib

/-!
Verification of the adoption-video pipeline core.

A shallow embedding, in Lean 4, of the duration/selection/timing algorithms
of the video-generation pipeline (`backend/edit.py`, `backend/generate.py`,
`backend/subtitles.py`, `backend/audio.py`).

Conventions:
* Python floats are modelled as rationals (`ℚ`); the verified properties are
  order/arithmetic facts that hold exactly, not results of rounding.
* File paths are modelled as strings; the filesystem and the media library
  are modelled as oracles (a `probe` function giving the measured
  duration, an environment record for the orchestrator).
* A media handle is represented by the one attribute the algorithms consume:
  its duration.
-/

namespace AdoptionVideo

/-- A path on disk, abstracted to its name. -/
abbrev PathId := String

/-- Structure `StreamClip` from `backend/edit.py`: a selected clip with its assigned
play duration. (`start`/`end` keep their source defaults and are never
written by `pick_visuals`, so they are omitted.) -/
structure StreamClip where
  path : PathId
  duration : ℚ
deriving DecidableEq, Repr

/-- Worker loop of `pick_visuals` (`backend/edit.py` lines 55-79).
`probe` models `_safe_probe_duration` (which returns the measured duration,
or `0.0` when the clip is unreadable or probing throws).  The second
component of the result records which paths were probed, so that
"clip never opened" claims are statable.  The `total` argument is the
running total accumulated so far. -/
def pick_visuals_go (probe : PathId → ℚ) (target : ℚ) :
    List PathId → ℚ → List StreamClip × List PathId
  | [], _ => ([], [])
  | p :: rest, total =>
    let dur0 := probe p
    if dur0 ≤ 0 then
      -- `if dur <= 0: continue`
      let r := pick_visuals_go probe target rest total
      (r.1, p :: r.2)
    else
      -- `if total + dur > target_duration: dur = max(0.0, target_duration - total)`
      let dur := if total + dur0 > target then max 0 (target - total) else dur0
      if dur ≤ 0 then
        -- `if dur <= 0: break`
        ([], [p])
      else if total + dur ≥ target then
        -- append, then `if total >= target_duration: break`
        ([⟨p, dur⟩], [p])
      else
        let r := pick_visuals_go probe target rest (total + dur)
        (⟨p, dur⟩ :: r.1, p :: r.2)

/-- Function `pick_visuals` (`backend/edit.py` lines 55-79): greedily select and trim
candidate clips to fill `target_duration`. -/
def pick_visuals (probe : PathId → ℚ) (clip_paths : List PathId)
    (target_duration : ℚ) : List StreamClip :=
  (pick_visuals_go probe target_duration clip_paths 0).1

/-- The paths `pick_visuals` probes (opens) during a run. -/
def pick_visuals_probed (probe : PathId → ℚ) (clip_paths : List PathId)
    (target_duration : ℚ) : List PathId :=
  (pick_visuals_go probe target_duration clip_paths 0).2

/-- Sum of the assigned durations of a selection. -/
def sumDur (l : List StreamClip) : ℚ := (l.map StreamClip.duration).sum

theorem sumDur_nil : sumDur [] = 0 := rfl

theorem sumDur_cons (c : StreamClip) (l : List StreamClip) :
    sumDur (c :: l) = c.duration + sumDur l := by
  simp [sumDur]

/-- Every clip appended by the selection loop has a positive assigned
duration, and its probe was positive. -/
theorem pick_visuals_go_mem (probe : PathId → ℚ) (target : ℚ) :
    ∀ (paths : List PathId) (total : ℚ) (c : StreamClip),
      c ∈ (pick_visuals_go probe target paths total).1 →
      0 < c.duration ∧ 0 < probe c.path := by
  intro paths
  induction paths with
  | nil => intro total c hc; simp [pick_visuals_go] at hc
  | cons p rest ih =>
    intro total c hc
    by_cases h0 : probe p ≤ 0
    · rw [pick_visuals_go] at hc
      simp only [h0, if_pos] at hc
      exact ih total c hc
    · rw [pick_visuals_go] at hc
      simp only [h0, if_neg, if_false] at hc
      set dur := if total + probe p > target then max 0 (target - total) else probe p with hdur
      by_cases hd0 : dur ≤ 0
      · simp [hd0] at hc
      · simp only [hd0, if_neg, if_false] at hc
        by_cases hstop : total + dur ≥ target
        · simp only [hstop, if_pos, List.mem_singleton] at hc
          subst hc
          exact ⟨lt_of_not_le hd0, lt_of_not_le h0⟩
        · simp only [hstop, if_neg, if_false, List.mem_cons] at hc
          rcases hc with hc | hc
          · subst hc
            exact ⟨lt_of_not_le hd0, lt_of_not_le h0⟩
          · exact ih (total + dur) c hc

/-- The sum of assigned durations produced by the loop is nonnegative. -/
theorem pick_visuals_go_sum_nonneg (probe : PathId → ℚ) (target : ℚ)
    (paths : List PathId) (total : ℚ) :
    0 ≤ sumDur (pick_visuals_go probe target paths total).1 := by
  induction paths generalizing total with
  | nil => simp [pick_visuals_go, sumDur_nil]
  | cons p rest ih =>
    rw [pick_visuals_go]
    by_cases h0 : probe p ≤ 0
    · simpa [h0] using ih total
    · simp only [h0, if_neg, if_false]
      set dur := if total + probe p > target then max 0 (target - total) else probe p with hdur
      by_cases hd0 : dur ≤ 0
      · simp [hd0, sumDur_nil]
      · have hdpos : 0 < dur := lt_of_not_le hd0
        by_cases hstop : total + dur ≥ target
        · simp only [hstop, hd0, if_pos, if_neg, if_false]
          simp [sumDur_cons, sumDur_nil]
          exact le_of_lt hdpos
        · simp only [hstop, hd0, if_neg, if_false]
          rw [sumDur_cons]
          have := ih (total + dur)
          linarith

/-- Budget invariant of the selection loop: starting from a running total
that is still within budget, the appended durations never push past it. -/
theorem pick_visuals_go_budget (probe : PathId → ℚ) (target : ℚ)
    (paths : List PathId) (total : ℚ) (h : total ≤ target) :
    total + sumDur (pick_visuals_go probe target paths total).1 ≤ target := by
  induction paths generalizing total with
  | nil => simpa [pick_visuals_go, sumDur_nil] using h
  | cons p rest ih =>
    rw [pick_visuals_go]
    by_cases h0 : probe p ≤ 0
    · simpa [h0] using ih total h
    · simp only [h0, if_neg, if_false]
      set dur := if total + probe p > target then max 0 (target - total) else probe p with hdur
      have hfit : total + dur ≤ target ∨ dur = target - total := by
        by_cases hover : total + probe p > target
        · right
          rw [hdur]
          simp only [hover, if_pos]
          exact max_eq_right (by linarith)
        · left
          rw [hdur]
          simp only [hover, if_neg, if_false]
          linarith [not_lt.mp hover]
      have htd : total + dur ≤ target := by
        rcases hfit with hfit | hfit
        · exact hfit
        · rw [hfit]; linarith
      by_cases hd0 : dur ≤ 0
      · simpa [hd0, sumDur_nil] using h
      · by_cases hstop : total + dur ≥ target
        · simp only [hstop, hd0, if_pos, if_neg, if_false]
          simpa [sumDur_cons, sumDur_nil] using htd
        · simp only [hstop, hd0, if_neg, if_false]
          rw [sumDur_cons]
          have := ih (total + dur) htd
          linarith

/-- If the running total is still strictly under budget and some remaining
candidate probes positive, the loop contributes a positive duration. -/
theorem pick_visuals_go_pos (probe : PathId → ℚ) (target : ℚ)
    (paths : List PathId) (total : ℚ) (h : total < target)
    (hex : ∃ p ∈ paths, 0 < probe p) :
    0 < sumDur (pick_visuals_go probe target paths total).1 := by
  induction paths generalizing total with
  | nil => rcases hex with ⟨p, hp, _⟩; simp at hp
  | cons q rest ih =>
    rw [pick_visuals_go]
    by_cases h0 : probe q ≤ 0
    · have hex' : ∃ p ∈ rest, 0 < probe p := by
        rcases hex with ⟨p, hp, hpos⟩
        rcases List.mem_cons.mp hp with hpq | hp'
        · subst hpq; exact absurd hpos (not_lt.mpr h0)
        · exact ⟨p, hp', hpos⟩
      simpa [h0] using ih total h hex'
    · simp only [h0, if_neg, if_false]
      set dur := if total + probe q > target then max 0 (target - total) else probe q with hdur
      have hdpos : 0 < dur := by
        rw [hdur]
        by_cases hover : total + probe q > target
        · simp only [hover, if_pos]
          have hpos : (0 : ℚ) < target - total := by linarith
          exact lt_max_of_lt_right hpos
        · simp only [hover, if_neg, if_false]
          exact lt_of_not_le h0
      have hd0 : ¬ dur ≤ 0 := not_le.mpr hdpos
      by_cases hstop : total + dur ≥ target
      · simp only [hstop, hd0, if_pos, if_neg, if_false]
        simpa [sumDur_cons, sumDur_nil] using hdpos
      · simp only [hstop, hd0, if_neg, if_false]
        rw [sumDur_cons]
        have := pick_visuals_go_sum_nonneg probe target rest (total + dur)
        linarith

/-- C1. For every ordered candidate list and effective duration `E > 0`, the
clip list returned by `pick_visuals` satisfies: the sum of assigned clip
durations is at most `E`; if at least one candidate probes readable
(positive duration), the sum is positive; and no candidate whose probe
returned a nonpositive duration (unreadable, or the probe threw) appears in
the result. -/
theorem C1_pick_visuals_correct (probe : PathId → ℚ) (clip_paths : List PathId)
    (E : ℚ) (hE : 0 < E) :
    sumDur (pick_visuals probe clip_paths E) ≤ E ∧
    ((∃ p ∈ clip_paths, 0 < probe p) →
      0 < sumDur (pick_visuals probe clip_paths E)) ∧
    (∀ c ∈ pick_visuals probe clip_paths E, 0 < probe c.path) := by
  refine ⟨?_, ?_, ?_⟩
  · have := pick_visuals_go_budget probe E clip_paths 0 (le_of_lt hE)
    simpa [pick_visuals] using this
  · intro hex
    exact pick_visuals_go_pos probe E clip_paths 0 hE hex
  · intro c hc
    exact (pick_visuals_go_mem probe E clip_paths 0 c hc).2

/-- Witness for C1 at a concrete input: two candidates, the first
unreadable, budget 5; the selector keeps only the readable one. -/
theorem C1_pick_visuals_correct_witness :
    (0 : ℚ) < 5 ∧
    (sumDur (pick_visuals
        (fun p => if p = "b.mp4" then 3 else 0) ["a.mp4", "b.mp4"] 5) ≤ 5 ∧
    ((∃ p ∈ ["a.mp4", "b.mp4"],
        0 < (fun p => if p = "b.mp4" then (3 : ℚ) else 0) p) →
      0 < sumDur (pick_visuals
        (fun p => if p = "b.mp4" then 3 else 0) ["a.mp4", "b.mp4"] 5)) ∧
    (∀ c ∈ pick_visuals
        (fun p => if p = "b.mp4" then (3 : ℚ) else 0) ["a.mp4", "b.mp4"] 5,
      0 < (fun p => if p = "b.mp4" then (3 : ℚ) else 0) c.path)) :=
  ⟨by norm_num,
   C1_pick_visuals_correct (fun p => if p = "b.mp4" then 3 else 0)
     ["a.mp4", "b.mp4"] 5 (by norm_num)⟩

/-- C8. Three readable 20-second clips with a 40-second budget: the selector
takes clip 1 in full and clip 2 in full, reaching exactly 40 seconds, and
stops; the third candidate is never probed. -/
theorem C8_scenario_A :
    pick_visuals (fun _ => 20) ["c1.mp4", "c2.mp4", "c3.mp4"] 40 =
      [⟨"c1.mp4", 20⟩, ⟨"c2.mp4", 20⟩] ∧
    sumDur (pick_visuals (fun _ => 20) ["c1.mp4", "c2.mp4", "c3.mp4"] 40) = 40 ∧
    pick_visuals_probed (fun _ => 20) ["c1.mp4", "c2.mp4", "c3.mp4"] 40 =
      ["c1.mp4", "c2.mp4"] ∧
    "c3.mp4" ∉ pick_visuals_probed (fun _ => 20) ["c1.mp4", "c2.mp4", "c3.mp4"] 40 := by
  have hgo : pick_visuals_go (fun _ => 20) 40 ["c1.mp4", "c2.mp4", "c3.mp4"] 0 =
      ([⟨"c1.mp4", 20⟩, ⟨"c2.mp4", 20⟩], ["c1.mp4", "c2.mp4"]) := by
    simp [pick_visuals_go]
    norm_num
  refine ⟨?_, ?_, ?_, ?_⟩
  · rw [pick_visuals, hgo]
  · rw [pick_visuals, hgo]
    simp [sumDur]
    norm_num
  · rw [pick_visuals_probed, hgo]
  · rw [pick_visuals_probed, hgo]
    decide

/-! Duration Budget Resolver (`backend/generate.py` lines 87-93) -/

/-- Function `_compute_effective_duration` from `generate_video`
(`backend/generate.py` lines 87-93): `pad = 1.0`; if the measured narration
duration is present and positive, return
`min(target_duration, voice_duration + pad)`, else `target_duration`. -/
def compute_effective_duration (target_duration : ℚ)
    (voice_duration : Option ℚ) : ℚ :=
  let pad : ℚ := 1
  match voice_duration with
  | some v => if 0 < v then min target_duration (v + pad) else target_duration
  | none => target_duration

/-- C2. For every configured target duration `T > 0` and optional measured
narration duration `V`, the effective duration equals `min T (V + 1)` when
`V` is present and positive, and equals `T` otherwise.  (The computation is
a total function, so it never fails.) -/
theorem C2_effective_duration (T : ℚ) (hT : 0 < T) (V : Option ℚ) :
    (∀ v, V = some v → 0 < v →
      compute_effective_duration T V = min T (v + 1)) ∧
    ((V = none ∨ ∃ v, V = some v ∧ ¬ 0 < v) →
      compute_effective_duration T V = T) := by
  constructor
  · intro v hv hvpos
    subst hv
    simp [compute_effective_duration, hvpos]
  · intro h
    rcases h with h | ⟨v, hv, hvneg⟩
    · subst h; rfl
    · subst hv
      simp [compute_effective_duration, hvneg]

/-- Witness for C2 at concrete inputs: `T = 40`; narration measured at 8
seconds gives `E = min 40 9 = 9`, absent narration gives `E = 40`. -/
theorem C2_effective_duration_witness :
    (0 : ℚ) < 40 ∧
    compute_effective_duration 40 (some 8) = min 40 (8 + 1) ∧
    compute_effective_duration 40 none = 40 := by
  refine ⟨by norm_num, ?_, ?_⟩
  · exact (C2_effective_duration 40 (by norm_num) (some 8)).1 8 rfl (by norm_num)
  · exact (C2_effective_duration 40 (by norm_num) none).2 (Or.inl rfl)

/-! Video Assembler audio/video synchronization
(`backend/edit.py` lines 147-166) -/

/-- The audio/video synchronization step of `assemble_video`
(`backend/edit.py` lines 147-166), as a function of the concatenated video
duration `vdur` and the measured duration of the supplied audio file (`none`
models "no audio file supplied / file does not exist").  Returns the final
video duration and the duration of the attached audio track (`none` when no
audio is attached):
* with no audio file, the video is left untouched and no audio is attached;
* with an audio file of measured duration `adur > 0`, `sync = min vdur adur`
  and whichever stream is longer is trimmed (`subclip(0, sync)`) down to
  `sync`, then the audio is attached;
* with `adur ≤ 0` the whole sync block is skipped: no trim, no audio. -/
def assemble_sync (vdur : ℚ) (audio : Option ℚ) : ℚ × Option ℚ :=
  match audio with
  | none => (vdur, none)
  | some adur =>
    if 0 < adur then
      let sync := min vdur adur
      let v := if sync < vdur then sync else vdur
      let a := if sync < adur then sync else adur
      (v, some a)
    else (vdur, none)

/-- C4. When an audio file with positive measured duration is supplied, the
synchronization point is `sync = min vdur adur`; whichever stream is longer
is truncated down to `sync` (never stretched), so the final video and
attached audio durations of the rendered asset both equal `min vdur adur`. -/
theorem C4_sync_min (vdur adur : ℚ) (ha : 0 < adur) :
    assemble_sync vdur (some adur) = (min vdur adur, some (min vdur adur)) := by
  rw [assemble_sync]
  simp only [ha, if_pos]
  rw [Prod.mk.injEq]
  constructor
  · split
    · rfl
    · rename_i h
      exact le_antisymm (not_lt.mp h) (min_le_left _ _)
  · refine congrArg some ?_
    split
    · rfl
    · rename_i h
      exact le_antisymm (not_lt.mp h) (min_le_right _ _)

/-- Witness for C4 at the concrete instance given in the spec: `vdur = 12`, `adur = 9`
gives an effective duration of `9` for both streams. -/
theorem C4_sync_min_witness :
    (0 : ℚ) < 9 ∧ assemble_sync 12 (some 9) = (9, some 9) := by
  refine ⟨by norm_num, ?_⟩
  have h := C4_sync_min 12 9 (by norm_num)
  rw [h]
  norm_num

/-- C9. If an audio file is supplied but its measured duration is not
positive, the sync block is skipped entirely: the video keeps its full
concatenated duration (no trim toward a zero-length sync point) and no
audio track is attached. -/
theorem C9_nonpositive_audio_skips_sync (vdur adur : ℚ) (ha : adur ≤ 0) :
    assemble_sync vdur (some adur) = (vdur, none) := by
  rw [assemble_sync]
  simp [not_lt.mpr ha]

/-- Witness for C9 at a concrete input: a zero-duration audio file leaves a
12-second video at 12 seconds with no audio. -/
theorem C9_nonpositive_audio_skips_sync_witness :
    (0 : ℚ) ≤ 0 ∧ assemble_sync 12 (some 0) = (12, none) :=
  ⟨le_refl 0, C9_nonpositive_audio_skips_sync 12 0 (le_refl 0)⟩

/-! Audio Track Builder (`backend/audio.py` lines 64-113) -/

/-- The looping step of `build_audio_track` (`backend/audio.py` lines
89-91): if the music is shorter than the target,
`loops = int(total // music.duration) + 1` whole copies are concatenated
(`int(x // y)` on nonnegative floats is `⌊x / y⌋`; a python list repeated a
negative number of times is empty, hence the `Int.toNat`). -/
def looped_music_duration (mdur total_visual_duration : ℚ) : ℚ :=
  if mdur < total_visual_duration then
    (((⌊total_visual_duration / mdur⌋).toNat + 1 : ℕ) : ℚ) * mdur
  else mdur

/-- The music track of `build_audio_track` after looping and
`subclip(0, total_visual_duration)` (`backend/audio.py` line 94);
`subclip(0, t)` yields a clip of duration `t` when the source is at least
`t` long, modelled by the `min`.  The subsequent `volumex` and fade effects
do not change the duration. -/
def music_track_duration (mdur total_visual_duration : ℚ) : ℚ :=
  min (looped_music_duration mdur total_visual_duration) total_visual_duration

/-- Function `build_audio_track` (`backend/audio.py` lines 64-113), reduced to the
durations it manipulates.  `voice_dur` is the duration of the narration
clip if one was supplied and loaded (load failures drop it); `music_dur`
is the duration of the resolved music source (explicit file or discovered
default) if it loaded.  The composite, when any track is present, is forced
to exactly the target by `set_duration(total_visual_duration)`; with no
tracks the function returns `None`. -/
def build_audio_track (total_visual_duration : ℚ) (voice_dur : Option ℚ)
    (music_dur : Option ℚ) : Option ℚ :=
  let audio_clips : List ℚ :=
    (match voice_dur with
     | some v => [v]
     | none => []) ++
    (match music_dur with
     | some m => [music_track_duration m total_visual_duration]
     | none => [])
  if audio_clips.isEmpty then none
  else some total_visual_duration

/-- C5. For every music source whose duration is positive and strictly
shorter than the target visual duration, the looped concatenation is at
least as long as the target, the duration of the trimmed music track equals the
target exactly, and `build_audio_track` returns a composite of exactly the
target duration. -/
theorem C5_music_loop_exact (m total : ℚ) (hm : 0 < m) (hlt : m < total)
    (voice : Option ℚ) :
    total ≤ looped_music_duration m total ∧
    music_track_duration m total = total ∧
    build_audio_track total voice (some m) = some total := by
  have hm0 : m ≠ 0 := ne_of_gt hm
  have hx : (1 : ℚ) < total / m := (one_lt_div hm).mpr hlt
  have hfloor : (1 : ℤ) ≤ ⌊total / m⌋ := by
    rw [Int.le_floor]
    exact_mod_cast le_of_lt hx
  have hlooped : total ≤ looped_music_duration m total := by
    rw [looped_music_duration]
    simp only [hlt, if_pos]
    have hstep : total / m < (⌊total / m⌋ : ℚ) + 1 := Int.lt_floor_add_one _
    have hmul : (total / m) * m < ((⌊total / m⌋ : ℚ) + 1) * m :=
      mul_lt_mul_of_pos_right hstep hm
    rw [div_mul_cancel₀ total hm0] at hmul
    have h1 : (⌊total / m⌋.toNat : ℤ) = ⌊total / m⌋ :=
      Int.toNat_of_nonneg (le_trans zero_le_one hfloor)
    have hrw : (((⌊total / m⌋.toNat + 1 : ℕ)) : ℚ) = ((⌊total / m⌋ : ℚ) + 1) := by
      exact_mod_cast congrArg (fun z : ℤ => ((z + 1 : ℤ) : ℚ)) h1
    rw [hrw]
    exact le_of_lt hmul
  have htrack : music_track_duration m total = total :=
    min_eq_right hlooped
  refine ⟨hlooped, htrack, ?_⟩
  cases voice <;> simp [build_audio_track]

/-- Witness for C5 at a concrete input: a 3-second music bed looped for a
7-second target (3 copies, 9 seconds, trimmed to 7). -/
theorem C5_music_loop_exact_witness :
    ((0 : ℚ) < 3 ∧ (3 : ℚ) < 7) ∧
    ((7 : ℚ) ≤ looped_music_duration 3 7 ∧
     music_track_duration 3 7 = 7 ∧
     build_audio_track 7 none (some 3) = some 7) :=
  ⟨⟨by norm_num, by norm_num⟩,
   C5_music_loop_exact 3 7 (by norm_num) (by norm_num) none⟩

/-! Subtitle Timing Engine (`backend/subtitles.py`)

Strings are processed as character lists.  `Char.isWhitespace` models
the python `\s` / `str.split()` / `str.strip()` whitespace (faithful on the
ASCII whitespace the scripts contain). -/

/-- Model of `re.sub(r"\[.*?\]", " ", script, flags=re.DOTALL)` as a left-to-right
scan.  The state is `none` outside a bracketed span and `some pending`
(the consumed characters, reversed) after a so-far-unmatched `[`.  When
the span closes, it collapses to one space; at end of input an unclosed
`[` and everything after it are emitted unchanged, as the regex does not
match there. -/
def subBrackets : List Char → Option (List Char) → List Char
  | [], none => []
  | [], some pending => pending.reverse
  | c :: rest, none =>
    if c = '[' then subBrackets rest (some [c])
    else c :: subBrackets rest none
  | c :: rest, some pending =>
    if c = ']' then ' ' :: subBrackets rest none
    else subBrackets rest (some (c :: pending))

/-- Model of `re.sub(r"\s+", " ", s)`: collapse every maximal whitespace run to a
single space. -/
def collapseWS : List Char → List Char
  | [] => []
  | [c] => if c.isWhitespace then [' '] else [c]
  | c :: d :: rest =>
    if c.isWhitespace && d.isWhitespace then collapseWS (d :: rest)
    else (if c.isWhitespace then ' ' else c) :: collapseWS (d :: rest)

/-- A sentence-ending punctuation character (`[.!?]`). -/
def isSentEnd (c : Char) : Bool := c = '.' || c = '!' || c = '?'

/-- Model of `re.split(r"(?<=[.!?])\s+", s)` for a string whose whitespace runs
have already been collapsed to single characters: split after a
sentence-ending character followed by whitespace, consuming the
whitespace.  `acc` holds the reversed characters of the part being
accumulated. -/
def splitSentParts : List Char → List Char → List (List Char)
  | acc, [] => [acc.reverse]
  | acc, [c] => [(c :: acc).reverse]
  | acc, c :: w :: rest =>
    if isSentEnd c && w.isWhitespace then
      (c :: acc).reverse :: splitSentParts [] rest
    else splitSentParts (c :: acc) (w :: rest)

/-- Python `str.strip()`. -/
def stripChars (l : List Char) : List Char :=
  List.rdropWhile Char.isWhitespace (l.dropWhile Char.isWhitespace)

/-- Function `split_sentences` (`backend/subtitles.py` lines 12-17): strip
bracketed stage directions, collapse whitespace, split after
sentence-ending punctuation, strip each part and drop the empty ones. -/
def split_sentences (script : String) : List (List Char) :=
  let cleaned := collapseWS (subBrackets script.data none)
  let parts := splitSentParts [] cleaned
  (parts.map stripChars).filter (fun l => !l.isEmpty)

/-- The fixed speaking-rate constant `approx_wps = 2.8` from
`estimate_sentence_durations`. -/
def approx_wps : ℚ := 28 / 10

/-- Model of `len(s.split())`: the number of maximal non-whitespace runs; the flag
records whether the scan is inside a word. -/
def countWordsAux : Bool → List Char → ℕ
  | _, [] => 0
  | inWord, c :: rest =>
    if c.isWhitespace then countWordsAux false rest
    else (if inWord then 0 else 1) + countWordsAux true rest

/-- Model of `len(s.split())`. -/
def countWords (l : List Char) : ℕ := countWordsAux false l

/-- Raw duration estimate of one sentence
(`backend/subtitles.py` lines 27-29):
`max(1.0, max(1, len(s.split())) / approx_wps)`. -/
def sentence_raw_duration (s : List Char) : ℚ :=
  max 1 ((max 1 (countWords s) : ℕ) / approx_wps)

/-- Function `estimate_sentence_durations` (`backend/subtitles.py` lines 20-36):
scale raw word-count durations so the cues tile `total_duration`; if the
raw sum is nonpositive, split `total_duration` evenly. -/
def estimate_sentence_durations (sentences : List (List Char))
    (total_duration : ℚ) : List ℚ :=
  if sentences.isEmpty then []
  else
    let raw := sentences.map sentence_raw_duration
    let total_raw := raw.sum
    if total_raw ≤ 0 then
      List.replicate sentences.length (total_duration / (sentences.length : ℚ))
    else
      let scale := total_duration / total_raw
      raw.map (fun d => d * scale)

/-- A timed subtitle cue: stripped sentence text, start offset, duration
(`set_start(cur)` / `set_duration(dur)` of the rendered clip; the 0.15 s
crossfades change neither). -/
structure SubtitleCue where
  text : List Char
  start : ℚ
  duration : ℚ
deriving DecidableEq, Repr

/-- The cue-emission loop of `build_subtitle_clips`
(`backend/subtitles.py` lines 117-137): walk the sentences paired with
their durations; a sentence whose stripped text is empty is skipped
without advancing `cur`. -/
def build_cues_go : List (List Char × ℚ) → ℚ → List SubtitleCue
  | [], _ => []
  | (s, d) :: rest, cur =>
    if (stripChars s).isEmpty then build_cues_go rest cur
    else ⟨stripChars s, cur, d⟩ :: build_cues_go rest (cur + d)

/-- Function `build_subtitle_clips` (`backend/subtitles.py` lines 101-138),
reduced to cue timing. -/
def build_subtitle_cues (script : String) (total_duration : ℚ) :
    List SubtitleCue :=
  let sentences := split_sentences script
  if sentences.isEmpty then []
  else build_cues_go
    (sentences.zip (estimate_sentence_durations sentences total_duration)) 0

/-- The cues tile the timeline from `t`: the first starts at `t` and each
next one starts where the previous ended (contiguous, hence
non-overlapping). -/
def contiguousFrom : ℚ → List SubtitleCue → Prop
  | _, [] => True
  | t, c :: rest => c.start = t ∧ contiguousFrom (c.start + c.duration) rest

/-- Sum of the cue durations. -/
def cueSum (l : List SubtitleCue) : ℚ := (l.map SubtitleCue.duration).sum

theorem stripChars_idem (l : List Char) :
    stripChars (stripChars l) = stripChars l := by
  rw [stripChars, stripChars]
  have h1 : List.dropWhile Char.isWhitespace
      (List.rdropWhile Char.isWhitespace (List.dropWhile Char.isWhitespace l)) =
      List.rdropWhile Char.isWhitespace (List.dropWhile Char.isWhitespace l) := by
    rw [List.dropWhile_eq_self_iff]
    intro hl
    have hpre := List.rdropWhile_prefix Char.isWhitespace
      (List.dropWhile Char.isWhitespace l)
    have hlen : 0 < (List.dropWhile Char.isWhitespace l).length :=
      lt_of_lt_of_le hl hpre.length_le
    rw [List.get_eq_getElem, hpre.getElem hl]
    exact List.dropWhile_get_zero_not Char.isWhitespace l hlen
  rw [h1, List.rdropWhile_idempotent]

theorem split_sentences_mem (script : String) :
    ∀ s ∈ split_sentences script, stripChars s = s ∧ s ≠ [] := by
  intro s hs
  simp only [split_sentences, List.mem_filter, List.mem_map,
    Bool.not_eq_true', List.isEmpty_eq_false] at hs
  obtain ⟨⟨p, _, hp⟩, hne⟩ := hs
  subst hp
  exact ⟨stripChars_idem p, hne⟩

theorem sentence_raw_duration_ge_one (s : List Char) :
    1 ≤ sentence_raw_duration s := le_max_left _ _

theorem sum_map_mul (l : List ℚ) (r : ℚ) :
    (l.map (fun d => d * r)).sum = l.sum * r := by
  induction l with
  | nil => simp
  | cons a t ih => simp [ih, add_mul]

/-- For a nonempty sentence list, the scaled durations sum to exactly the
total duration. -/
theorem estimate_sum (sentences : List (List Char)) (D : ℚ)
    (h : sentences ≠ []) :
    (estimate_sentence_durations sentences D).sum = D := by
  rw [estimate_sentence_durations]
  have hne : sentences.isEmpty = false := by
    simpa [List.isEmpty_eq_false] using h
  rw [hne]
  simp only [Bool.false_eq_true, if_false]
  have hpos : 0 < (sentences.map sentence_raw_duration).sum := by
    refine List.sum_pos _ (fun x hx => ?_) ?_
    · obtain ⟨s, _, rfl⟩ := List.mem_map.mp hx
      exact lt_of_lt_of_le one_pos (sentence_raw_duration_ge_one s)
    · simpa using h
  rw [if_neg (not_le.mpr hpos)]
  rw [sum_map_mul, mul_comm,
    div_mul_cancel₀ D (ne_of_gt hpos)]

/-- The cue loop, when no sentence is skipped, tiles the timeline from
`cur` and spends exactly the paired durations. -/
theorem build_cues_go_spec (l : List (List Char × ℚ)) (cur : ℚ)
    (h : ∀ p ∈ l, stripChars p.1 ≠ []) :
    contiguousFrom cur (build_cues_go l cur) ∧
    cueSum (build_cues_go l cur) = (l.map Prod.snd).sum := by
  induction l generalizing cur with
  | nil => exact ⟨trivial, by simp [build_cues_go, cueSum]⟩
  | cons p rest ih =>
    obtain ⟨s, d⟩ := p
    have hs : stripChars s ≠ [] := h (s, d) (List.mem_cons_self _ _)
    have hI : (stripChars s).isEmpty = false := by
      simpa [List.isEmpty_eq_false] using hs
    rw [build_cues_go, hI]
    simp only [Bool.false_eq_true, if_false]
    have ihr := ih (cur + d) (fun q hq => h q (List.mem_cons_of_mem _ hq))
    refine ⟨⟨rfl, ihr.1⟩, ?_⟩
    simp only [cueSum, List.map_cons, List.sum_cons] at ihr ⊢
    rw [ihr.2]

/-- C3 (amended). For every script whose sentence split is nonempty and
every total duration `D > 0`, the produced cues are contiguous and
non-overlapping — the first starts at 0 and each next cue starts exactly
where the previous one ends — and the cue durations sum to exactly `D`. -/
theorem C3_subtitles_tile (script : String) (D : ℚ)
    (hs : split_sentences script ≠ []) (hD : 0 < D) :
    contiguousFrom 0 (build_subtitle_cues script D) ∧
    cueSum (build_subtitle_cues script D) = D := by
  rw [build_subtitle_cues]
  have hne : (split_sentences script).isEmpty = false := by
    simpa [List.isEmpty_eq_false] using hs
  rw [hne]
  simp only [Bool.false_eq_true, if_false]
  have hlen : (estimate_sentence_durations (split_sentences script) D).length =
      (split_sentences script).length := by
    rw [estimate_sentence_durations, hne]
    simp only [Bool.false_eq_true, if_false]
    by_cases htr : ((split_sentences script).map sentence_raw_duration).sum ≤ 0
    · simp [htr]
    · simp [htr]
  have hmem : ∀ p ∈ (split_sentences script).zip
      (estimate_sentence_durations (split_sentences script) D),
      stripChars p.1 ≠ [] := by
    intro p hp
    obtain ⟨a, b⟩ := p
    have hmem1 := (List.of_mem_zip hp).1
    have hm := split_sentences_mem script a hmem1
    rw [hm.1]
    exact hm.2
  have hgo := build_cues_go_spec _ 0 hmem
  refine ⟨hgo.1, ?_⟩
  rw [hgo.2, List.map_snd_zip _ _ (le_of_eq hlen),
    estimate_sum _ D hs]

/-- Witness for C3 (amended) at a concrete input: the script
`"Hi. Bye."` splits into two sentences, and with `D = 10` the cues tile
`[0, 10]` exactly. -/
theorem C3_subtitles_tile_witness :
    (split_sentences "Hi. Bye." ≠ [] ∧ (0 : ℚ) < 10) ∧
    (contiguousFrom 0 (build_subtitle_cues "Hi. Bye." 10) ∧
     cueSum (build_subtitle_cues "Hi. Bye." 10) = 10) :=
  ⟨⟨by decide, by norm_num⟩,
   C3_subtitles_tile "Hi. Bye." 10 (by decide) (by norm_num)⟩

/-- Counterexample to C3 as frozen: the script `" "` (one space) is a
non-empty script, and `D = 5 > 0`, yet the sentence split is empty, no
cue is produced, and the cue durations sum to `0`, not `5`. -/
theorem C3_counterexample :
    (" " : String) ≠ "" ∧ (0 : ℚ) < 5 ∧
    build_subtitle_cues " " 5 = [] ∧
    cueSum (build_subtitle_cues " " 5) ≠ 5 := by
  refine ⟨by decide, by norm_num, ?_, ?_⟩
  · decide
  · decide

/-! Pipeline Orchestrator (`backend/generate.py` lines 25-217)

`generate_video` is effectful; its external collaborators (metadata
loading, story generation, TTS synthesis, duration measurement, the
filesystem, the audio mixer, the renderer) are modelled as oracles in an
environment record, consulted in program order.  The returned trace
records whether `build_audio_track` was invoked and which audio file was
handed to `assemble_video`. -/

/-- Structure `StoryResult` from `backend/story.py`. -/
structure Story where
  title : String
  short_title : String
  description : String
  script : String
  tone_arc : String
deriving DecidableEq, Repr

/-- Structure `GenResult` from `backend/generate.py`. -/
structure GenResult where
  success : Bool
  message : Option String
  outfile : Option PathId
  duration : Option ℚ
  tone_arc : Option String
  story_title : Option String
deriving DecidableEq, Repr

/-- Outcome of the `build_audio_track` call in `generate_video`:
it returned a composite clip, returned `None`, raised `MemoryError`, or
raised another exception. -/
inductive MixOutcome where
  | clip : MixOutcome
  | noClip : MixOutcome
  | memErr : MixOutcome
  | err : String → MixOutcome
deriving DecidableEq, Repr

/-- Outcome of the `assemble_video` call: returned normally, raised
`MemoryError`, or raised another exception. -/
inductive RenderOutcome where
  | ok : RenderOutcome
  | memErr : RenderOutcome
  | err : String → RenderOutcome
deriving DecidableEq, Repr

/-- The external world of one `generate_video` run.  `load_metadata` is
reduced to the `name` field of the metadata (the only one the orchestrator
reads); an `Except.error` models the collaborator raising. -/
structure Env where
  pet_dir : PathId
  target_duration : ℚ
  use_tts : Bool
  load_metadata : Except String (Option String)
  build_story : Except String Story
  synth_voiceover : Except String PathId
  measure_voice : Except String ℚ
  file_exists : PathId → Bool
  collect_clips : List PathId
  probe : PathId → ℚ
  mix : MixOutcome
  write_mix_ok : Bool
  render : RenderOutcome
  out_exists_nonempty : Bool

/-- What the pipeline did on the audio/assembly stages: whether
`build_audio_track` was invoked, the audio file passed to
`assemble_video` (`none` also when assembly was never reached), and
whether `assemble_video` was invoked. -/
structure RunTrace where
  audio_builder_called : Bool
  audio_file_passed : Option PathId
  assemble_called : Bool
deriving DecidableEq, Repr

/-- The `(voice_file, voice_duration)` pair after the TTS block
(`backend/generate.py` lines 60-84): absent when TTS is disabled or
synthesis raised; the file is kept but the duration dropped when
measuring raised. -/
def voice_state (env : Env) : Option PathId × Option ℚ :=
  if env.use_tts then
    match env.synth_voiceover with
    | .error _ => (none, none)
    | .ok vf =>
      match env.measure_voice with
      | .error _ => (some vf, none)
      | .ok d => (some vf, some d)
  else (none, none)

/-- The effective duration of the run
(`effective_duration = _compute_effective_duration()`). -/
def effective_of (env : Env) : ℚ :=
  compute_effective_duration env.target_duration (voice_state env).2

/-- The selected visuals of the run
(`visuals = pick_visuals(clip_paths, effective_duration)`). -/
def visuals_of (env : Env) : List StreamClip :=
  pick_visuals env.probe env.collect_clips (effective_of env)

/-- Condition `voice_file and voice_file.exists()` at audio-build time
(`backend/generate.py` line 138). -/
def voice_present (env : Env) : Bool :=
  match (voice_state env).1 with
  | some vf => env.file_exists vf
  | none => false

/-- The mixed-audio output path
(`SETTINGS.base_output_dir / "audio" / f"{pet_dir.name}_mix.mp3"`). -/
def mix_path (env : Env) : PathId := "audio/" ++ env.pet_dir ++ "_mix.mp3"

/-- Function `generate_video` (`backend/generate.py` lines 25-217) over the oracle
environment, paired with the run trace.  (`cfg.validate()` and the
`mkdir` of the output directory are assumed not to raise; they are
outside every `try` block, so a failure there would propagate as an
exception, not as a `GenResult`.) -/
def generate_video (env : Env) (out_path : PathId) : GenResult × RunTrace :=
  let t0 : RunTrace := ⟨false, none, false⟩
  match env.load_metadata with
  | .error e =>
    (⟨false, some ("Failed to load metadata: " ++ e), none, none, none, none⟩, t0)
  | .ok _md =>
  match env.build_story with
  | .error e =>
    (⟨false, some ("Story generation failed: " ++ e), none, none, none, none⟩, t0)
  | .ok story =>
    let clips_dir := env.pet_dir ++ "/Clips"
    if env.collect_clips.isEmpty then
      (⟨false, some ("No video clips found in " ++ clips_dir),
        none, none, none, none⟩, t0)
    else if (visuals_of env).isEmpty then
      (⟨false, some "All clips were unreadable — cannot build video.",
        none, none, none, none⟩, t0)
    else
      let audio_file : Option PathId :=
        if voice_present env then
          match env.mix with
          | .clip =>
            if env.write_mix_ok then some (mix_path env) else (voice_state env).1
          | .noClip => (voice_state env).1
          | .memErr => (voice_state env).1
          | .err _ => (voice_state env).1
        else none
      let tr : RunTrace := ⟨voice_present env, audio_file, true⟩
      match env.render with
      | .memErr =>
        (⟨false,
          some ("Rendering failed due to insufficient memory. " ++
            "Try shorter clips, a smaller target duration, or a smaller aspect/resolution."),
          none, none, some story.tone_arc, some story.title⟩, tr)
      | .err e =>
        (⟨false, some ("Rendering failed: " ++ e),
          if env.out_exists_nonempty then some out_path else none,
          none, some story.tone_arc, some story.title⟩, tr)
      | .ok =>
        (⟨true, some "Video generated successfully.", some out_path,
          some (effective_of env), some story.tone_arc, some story.title⟩, tr)

/-- When every candidate probes unreadable, the selector returns no
visuals. -/
theorem pick_visuals_all_unreadable (probe : PathId → ℚ) (target : ℚ)
    (paths : List PathId) (h : ∀ p ∈ paths, probe p ≤ 0) :
    pick_visuals probe paths target = [] := by
  rw [pick_visuals]
  induction paths with
  | nil => rfl
  | cons p rest ih =>
    rw [pick_visuals_go]
    have hp : probe p ≤ 0 := h p (List.mem_cons_self _ _)
    simp only [hp, if_pos]
    exact ih (fun q hq => h q (List.mem_cons_of_mem _ hq))

/-- Both zero-readable-clips failure branches of `generate_video`, in one
helper: with metadata and story loaded and every candidate unreadable,
the run fails with no artifact, and the message depends on whether any
candidate file was found at all. -/
theorem generate_video_all_unreadable (env : Env) (out_path : PathId)
    (md : Option String) (hm : env.load_metadata = .ok md)
    (st : Story) (hst : env.build_story = .ok st)
    (hall : ∀ p ∈ env.collect_clips, env.probe p ≤ 0) :
    (generate_video env out_path).1.success = false ∧
    (generate_video env out_path).1.outfile = none ∧
    (env.collect_clips = [] →
      (generate_video env out_path).1.message =
        some ("No video clips found in " ++ (env.pet_dir ++ "/Clips"))) ∧
    (env.collect_clips ≠ [] →
      (generate_video env out_path).1.message =
        some "All clips were unreadable — cannot build video.") := by
  have hvis : visuals_of env = [] :=
    pick_visuals_all_unreadable env.probe (effective_of env) env.collect_clips hall
  by_cases hcl : env.collect_clips = []
  · refine ⟨?_, ?_, fun _ => ?_, fun hne => absurd hcl hne⟩ <;>
      simp [generate_video, hm, hst, hcl]
  · have hclE : env.collect_clips.isEmpty = false := by
      simpa [List.isEmpty_eq_false] using hcl
    refine ⟨?_, ?_, fun heq => absurd heq hcl, fun _ => ?_⟩ <;>
      simp [generate_video, hm, hst, hclE, hvis]

/-- C6 (amended). For every run whose `Clips/` folder yields zero
readable clips (no candidate files, or candidates that all probe
unreadable), the pipeline returns `success = false` and `outfile = none`;
the message names the clips directory when the folder contains no
candidate clip files, and is the fixed text
"All clips were unreadable — cannot build video." (which does not name
the directory) when candidates exist but none is readable. -/
theorem C6_zero_readable_clips (env : Env) (out_path : PathId)
    (md : Option String) (hm : env.load_metadata = .ok md)
    (st : Story) (hst : env.build_story = .ok st)
    (hall : ∀ p ∈ env.collect_clips, env.probe p ≤ 0) :
    (generate_video env out_path).1.success = false ∧
    (generate_video env out_path).1.outfile = none ∧
    (env.collect_clips = [] →
      (generate_video env out_path).1.message =
        some ("No video clips found in " ++ (env.pet_dir ++ "/Clips"))) ∧
    (env.collect_clips ≠ [] →
      (generate_video env out_path).1.message =
        some "All clips were unreadable — cannot build video.") :=
  generate_video_all_unreadable env out_path md hm st hst hall

/-- A concrete environment for C6: valid metadata and story, one
candidate clip that probes unreadable. -/
def C6_env : Env where
  pet_dir := "PetDir"
  target_duration := 40
  use_tts := false
  load_metadata := .ok (some "Rex")
  build_story := .ok ⟨"T", "S", "D", "script", "warm"⟩
  synth_voiceover := .error "unused"
  measure_voice := .error "unused"
  file_exists := fun _ => false
  collect_clips := ["PetDir/Clips/bad.mp4"]
  probe := fun _ => 0
  mix := .noClip
  write_mix_ok := true
  render := .ok
  out_exists_nonempty := false

/-- Counterexample to C6 as frozen: with one unreadable candidate in
`Clips/`, the run fails with `outfile = none` as the claim says, but the
message is the fixed string "All clips were unreadable — cannot build
video.", which does not contain the clips directory `PetDir/Clips`. -/
theorem C6_counterexample :
    (∀ p ∈ C6_env.collect_clips, C6_env.probe p ≤ 0) ∧
    (generate_video C6_env "out.mp4").1.success = false ∧
    (generate_video C6_env "out.mp4").1.outfile = none ∧
    (generate_video C6_env "out.mp4").1.message =
      some "All clips were unreadable — cannot build video." ∧
    ¬ ("PetDir/Clips" : String).data <:+:
      ("All clips were unreadable — cannot build video." : String).data := by
  have hall : ∀ p ∈ C6_env.collect_clips, C6_env.probe p ≤ 0 := by
    intro p _
    exact le_refl 0
  have h := generate_video_all_unreadable C6_env "out.mp4" (some "Rex") rfl
    ⟨"T", "S", "D", "script", "warm"⟩ rfl hall
  refine ⟨hall, h.1, h.2.1, h.2.2.2 (by simp [C6_env]), ?_⟩
  decide

/-- Witness for C6 (amended), empty-folder branch: a concrete
environment with no candidate clips produces a failure whose message
names `PetDir/Clips`. -/
theorem C6_zero_readable_clips_witness :
    ((C6_env.load_metadata = Except.ok (some "Rex")) ∧
     (∀ p ∈ [] , C6_env.probe p ≤ 0)) ∧
    ((generate_video { C6_env with collect_clips := [] } "out.mp4").1.success = false ∧
     (generate_video { C6_env with collect_clips := [] } "out.mp4").1.outfile = none ∧
     (generate_video { C6_env with collect_clips := [] } "out.mp4").1.message =
       some ("No video clips found in " ++ ("PetDir" ++ "/Clips"))) := by
  have h := C6_zero_readable_clips { C6_env with collect_clips := [] }
    "out.mp4" (some "Rex") rfl ⟨"T", "S", "D", "script", "warm"⟩ rfl
    (by intro p hp; simp at hp)
  exact ⟨⟨rfl, by intro p hp; simp at hp⟩, h.1, h.2.1, h.2.2.1 rfl⟩

/-- C7. For every run in which `assemble_video` raises a non-`MemoryError`
exception, `generate_video` returns `success = false`, and the `outfile`
field of the result is the output path exactly when a file already exists at that
path and is non-empty, and `none` otherwise. -/
theorem C7_render_failure_artifact (env : Env) (out_path : PathId)
    (md : Option String) (hm : env.load_metadata = .ok md)
    (st : Story) (hst : env.build_story = .ok st)
    (hcl : env.collect_clips ≠ [])
    (hvis : visuals_of env ≠ [])
    (e : String) (hr : env.render = .err e) :
    (generate_video env out_path).1.success = false ∧
    (generate_video env out_path).1.message = some ("Rendering failed: " ++ e) ∧
    (generate_video env out_path).1.outfile =
      (if env.out_exists_nonempty then some out_path else none) := by
  have hclE : env.collect_clips.isEmpty = false := by
    simpa [List.isEmpty_eq_false] using hcl
  have hvisE : (visuals_of env).isEmpty = false := by
    simpa [List.isEmpty_eq_false] using hvis
  refine ⟨?_, ?_, ?_⟩ <;> simp [generate_video, hm, hst, hclE, hvisE, hr]

/-- A concrete environment for C7: one readable 20-second clip, the
renderer raises a generic exception, and a non-empty partial output file
exists. -/
def C7_env : Env where
  pet_dir := "PetDir"
  target_duration := 40
  use_tts := false
  load_metadata := .ok (some "Rex")
  build_story := .ok ⟨"T", "S", "D", "script", "warm"⟩
  synth_voiceover := .error "unused"
  measure_voice := .error "unused"
  file_exists := fun _ => false
  collect_clips := ["PetDir/Clips/good.mp4"]
  probe := fun _ => 20
  mix := .noClip
  write_mix_ok := true
  render := .err "codec failure"
  out_exists_nonempty := true

/-- Witness for C7 at a concrete input: the renderer fails, a non-empty
partial file exists, and the failed result surfaces the output path. -/
theorem C7_render_failure_artifact_witness :
    (C7_env.collect_clips ≠ [] ∧ visuals_of C7_env ≠ [] ∧
     C7_env.render = RenderOutcome.err "codec failure") ∧
    ((generate_video C7_env "out.mp4").1.success = false ∧
     (generate_video C7_env "out.mp4").1.message =
       some ("Rendering failed: " ++ "codec failure") ∧
     (generate_video C7_env "out.mp4").1.outfile =
       (if C7_env.out_exists_nonempty then some "out.mp4" else none)) := by
  have hvis : visuals_of C7_env ≠ [] := by
    simp [visuals_of, effective_of, voice_state, compute_effective_duration,
      pick_visuals, pick_visuals_go, C7_env]
    norm_num
  refine ⟨⟨by simp [C7_env], hvis, rfl⟩, ?_⟩
  exact C7_render_failure_artifact C7_env "out.mp4" (some "Rex") rfl
    ⟨"T", "S", "D", "script", "warm"⟩ rfl (by simp [C7_env]) hvis
    "codec failure" rfl

/-- C10. Whenever narration is absent at audio-build time — TTS disabled,
synthesis raised, or the voice file does not exist, which is exactly
`voice_present env = false` — `generate_video` never invokes the audio
track builder and passes no audio file to the assembler: the rendered
video is video-only, and background music is never used without
narration. -/
theorem C10_no_narration_no_audio (env : Env) (out_path : PathId)
    (h : voice_present env = false) :
    (generate_video env out_path).2.audio_builder_called = false ∧
    (generate_video env out_path).2.audio_file_passed = none := by
  rw [generate_video]
  cases hm : env.load_metadata with
  | error e => exact ⟨rfl, rfl⟩
  | ok md =>
    cases hst : env.build_story with
    | error e => exact ⟨rfl, rfl⟩
    | ok st =>
      by_cases hcl : env.collect_clips.isEmpty
      · simp [hcl]
      · by_cases hv : (visuals_of env).isEmpty
        · simp [hcl, hv]
        · cases env.render <;> simp [hcl, hv, h]

/-- Witness for C10 at a concrete input: TTS disabled, so no narration;
the builder is never called and no audio reaches the assembler. -/
theorem C10_no_narration_no_audio_witness :
    voice_present C6_env = false ∧
    ((generate_video C6_env "out.mp4").2.audio_builder_called = false ∧
     (generate_video C6_env "out.mp4").2.audio_file_passed = none) :=
  ⟨rfl, C10_no_narration_no_audio C6_env "out.mp4" rfl⟩

end AdoptionVideo
